import Mathlib

/- Shallow embedding of the pyFAI geometry-refinement engine
   (src/pyFAI-src/geometryRefinement.py, class GeometryRefinement).

   Modelling conventions:
   - Python float64 values are modelled by exact rationals (ℚ).
   - The forward geometric model self.tth (inherited from AzimuthalIntegrator,
     outside this file) and numpy.arcsin are abstract function parameters of
     every definition that needs them: the refinement logic is generic in both.
   - The scipy minimizers (leastsq, fmin_slsqp, fmin, anneal) are abstract
     function parameters with the calling shape the source uses
     (objective/residual function, start vector, bounds).
   - numpy arrays of shape (n, k) are lists of row lists; column extraction
     follows the source slices data[:, j].
   - The astype(int32)/C-cast of a float to an integer truncates toward zero;
     int32 overflow wrap is not modelled (no claim involves rings beyond 2^31).
   - Python exceptions are modelled by an Option result: none marks the raise.
   - Out-of-range list indexing (a Python IndexError) yields a junk value 0;
     no claim below exercises an out-of-range index. -/

namespace GeometryRefinement

/-- Abstract forward model: self.tth(d1, d2, param), the predicted scattering
angle for one observation given a parameter vector. -/
abbrev Tth : Type := ℚ → ℚ → List ℚ → ℚ

/-- The mutable state of one GeometryRefinement instance: the six pose fields,
the wavelength, the detector pixel sizes, the scratch vector self.param, the
dataset, the d-spacing table, and the per-parameter bound fields. -/
structure Engine where
  dist : ℚ
  poni1 : ℚ
  poni2 : ℚ
  rot1 : ℚ
  rot2 : ℚ
  rot3 : ℚ
  wavelength : ℚ
  pixel1 : ℚ
  pixel2 : ℚ
  param : List ℚ
  data : List (List ℚ)
  dSpacing : List ℚ
  dist_min : ℚ
  dist_max : ℚ
  poni1_min : ℚ
  poni1_max : ℚ
  poni2_min : ℚ
  poni2_max : ℚ
  rot1_min : ℚ
  rot1_max : ℚ
  rot2_min : ℚ
  rot2_max : ℚ
  rot3_min : ℚ
  rot3_max : ℚ
  wavelength_min : ℚ
  wavelength_max : ℚ
deriving DecidableEq

/-- Column j of the dataset matrix: the source slice self.data[:, j]. -/
def col (data : List (List ℚ)) (j : ℕ) : List ℚ :=
  data.map (fun r => r.getD j 0)

/-- Number of columns of the dataset matrix: self.data.shape[-1]. -/
def ncols (e : Engine) : ℕ :=
  (e.data.headD []).length

/-- Truncation of a rational toward zero, the effect of astype(numpy.int32)
and of the C cast inside numpy fancy indexing (int32 wrap not modelled). -/
def truncInt (q : ℚ) : ℤ :=
  q.num.tdiv q.den

/-- numpy integer indexing into a 1-d array: negative indices wrap from the
end; an out-of-range index (an IndexError in Python) yields junk 0. -/
def npGet (l : List ℚ) (i : ℤ) : ℚ :=
  if 0 ≤ i then l.getD i.toNat 0 else l.getD (l.length - (-i).toNat) 0

/-- calc_2th for one ring index (the source is the elementwise map of this):
2.0 * arcsin(wavelength / (2.0e-10 * dSpacing[rings])), with rings cast to
int32 first. -/
def calc_2th (asin : ℚ → ℚ) (dSpacing : List ℚ) (ring : ℚ) (wavelength : ℚ) : ℚ :=
  2 * asin (wavelength / ((2e-10 : ℚ) * npGet dSpacing (truncInt ring)))

/-- residu1: self.tth(d1, d2, param) - self.calc_2th(rings, self.wavelength),
elementwise over the three data columns. -/
def residu1 (t : Tth) (asin : ℚ → ℚ) (wl : ℚ) (dsp : List ℚ)
    (param d1 d2 rings : List ℚ) : List ℚ :=
  (d1.zip (d2.zip rings)).map
    (fun x => t x.1 x.2.1 param - calc_2th asin dsp x.2.2 wl)

/-- residu1_wavelength: the wavelength-refined residual, substituting
lambda = param[6] * 1e-10. -/
def residu1_wavelength (t : Tth) (asin : ℚ → ℚ) (dsp : List ℚ)
    (param d1 d2 rings : List ℚ) : List ℚ :=
  (d1.zip (d2.zip rings)).map
    (fun x => t x.1 x.2.1 param - calc_2th asin dsp x.2.2 (param.getD 6 0 * (1e-10 : ℚ)))

/-- residu2: sum of squared residuals. -/
def residu2 (t : Tth) (asin : ℚ → ℚ) (wl : ℚ) (dsp : List ℚ)
    (param d1 d2 rings : List ℚ) : ℚ :=
  ((residu1 t asin wl dsp param d1 d2 rings).map (fun r => r ^ 2)).sum

/-- residu2_weighted: sum of weight * residual^2. -/
def residu2_weighted (t : Tth) (asin : ℚ → ℚ) (wl : ℚ) (dsp : List ℚ)
    (param d1 d2 rings weight : List ℚ) : ℚ :=
  ((weight.zip (residu1 t asin wl dsp param d1 d2 rings)).map
    (fun p => p.1 * p.2 ^ 2)).sum

/-- residu2_wavelength: sum of squared wavelength-refined residuals. -/
def residu2_wavelength (t : Tth) (asin : ℚ → ℚ) (dsp : List ℚ)
    (param d1 d2 rings : List ℚ) : ℚ :=
  ((residu1_wavelength t asin dsp param d1 d2 rings).map (fun r => r ^ 2)).sum

/-- residu2_wavelength_weighted: the weighted variant. -/
def residu2_wavelength_weighted (t : Tth) (asin : ℚ → ℚ) (dsp : List ℚ)
    (param d1 d2 rings weight : List ℚ) : ℚ :=
  ((weight.zip (residu1_wavelength t asin dsp param d1 d2 rings)).map
    (fun p => p.1 * p.2 ^ 2)).sum

/-- The ring column cast to integers: self.data[:, 2].astype(numpy.int32). -/
def ringIntCol (data : List (List ℚ)) : List ℚ :=
  (col data 2).map (fun q => ((truncInt q : ℤ) : ℚ))

/-- chi2(param=None): unweighted sum of squared plain residuals over the full
dataset; with no argument the last snapshot self.param is used. -/
def chi2 (t : Tth) (asin : ℚ → ℚ) (e : Engine) (p : Option (List ℚ)) : ℚ :=
  residu2 t asin e.wavelength e.dSpacing (p.getD e.param)
    (col e.data 0) (col e.data 1) (col e.data 2)

/-- The Python runtime type of the vector stored in self.param. The Engine
record keeps only the numeric contents, so the type of the stored snapshot
is supplied where it matters: refine1, refine2, refine2_wavelength, simplex
and every commit of a scipy output store a numpy array; the anneal snapshot
and the roca commit store a plain Python list. -/
inductive ParamKind where
  | array : ParamKind
  | pylist : ParamKind
deriving DecidableEq

/-- The body of chi2_wavelength once the parameter vector is resolved:
self.residu2_wavelength(param, data columns), with the ring column cast to
int32. Every non-raising path of chi2_wavelength returns this value. -/
def chi2_wavelength_on (t : Tth) (asin : ℚ → ℚ) (e : Engine) (param : List ℚ) : ℚ :=
  residu2_wavelength t asin e.dSpacing param
    (col e.data 0) (col e.data 1) (ringIntCol e.data)

/-- chi2_wavelength(param=None): with an explicit parameter vector it returns
the objective on that vector; with no argument it takes param = self.param
and, when that snapshot has 6 entries, executes
param.append(1e10 * self.wavelength). On a numpy-array snapshot (the kind
refine1, refine2, refine2_wavelength and simplex store) the append raises
AttributeError, modelled by a none outcome; on a Python-list snapshot the
append succeeds and, param being an alias of self.param, mutates the stored
snapshot to 7 entries. The result is the chi-squared outcome paired with
the post-call self.param. -/
def chi2_wavelength (t : Tth) (asin : ℚ → ℚ) (e : Engine) (k : ParamKind)
    (p : Option (List ℚ)) : Option ℚ × List ℚ :=
  match p with
  | some q => (some (chi2_wavelength_on t asin e q), e.param)
  | none =>
    if e.param.length = 6 then
      match k with
      | ParamKind.array => (none, e.param)
      | ParamKind.pylist =>
        (some (chi2_wavelength_on t asin e (e.param ++ [(1e10 : ℚ) * e.wavelength])),
         e.param ++ [(1e10 : ℚ) * e.wavelength])
    else (some (chi2_wavelength_on t asin e e.param), e.param)

/-- The current six-component pose, in the order used by every strategy. -/
def poseList (e : Engine) : List ℚ :=
  [e.dist, e.poni1, e.poni2, e.rot1, e.rot2, e.rot3]

/-- The name list d = ["dist", "poni1", "poni2", "rot1", "rot2", "rot3"]. -/
def poseNames : List String :=
  ["dist", "poni1", "poni2", "rot1", "rot2", "rot3"]

/-- getattr(self, name) for the seven refinable scalar attributes. -/
def getAttr (e : Engine) (n : String) : ℚ :=
  if n = "dist" then e.dist
  else if n = "poni1" then e.poni1
  else if n = "poni2" then e.poni2
  else if n = "rot1" then e.rot1
  else if n = "rot2" then e.rot2
  else if n = "rot3" then e.rot3
  else if n = "wavelength" then e.wavelength
  else 0

/-- getattr(self, "_%s_min" % name) for the seven bound records. -/
def boundMin (e : Engine) (n : String) : ℚ :=
  if n = "dist" then e.dist_min
  else if n = "poni1" then e.poni1_min
  else if n = "poni2" then e.poni2_min
  else if n = "rot1" then e.rot1_min
  else if n = "rot2" then e.rot2_min
  else if n = "rot3" then e.rot3_min
  else if n = "wavelength" then e.wavelength_min
  else 0

/-- getattr(self, "_%s_max" % name) for the seven bound records. -/
def boundMax (e : Engine) (n : String) : ℚ :=
  if n = "dist" then e.dist_max
  else if n = "poni1" then e.poni1_max
  else if n = "poni2" then e.poni2_max
  else if n = "rot1" then e.rot1_max
  else if n = "rot2" then e.rot2_max
  else if n = "rot3" then e.rot3_max
  else if n = "wavelength" then e.wavelength_max
  else 0

/-- The shared commit step of the 6-parameter strategies:
self.param = newParam followed by the tuple unpacking
self.dist, ..., self.rot3 = tuple(newParam); the scipy minimizers return a
vector of the same length 6 as their start vector, so positional access
stands in for the unpacking. -/
def commit6 (e : Engine) (p : List ℚ) : Engine :=
  { e with param := p,
           dist := p.getD 0 0, poni1 := p.getD 1 0, poni2 := p.getD 2 0,
           rot1 := p.getD 3 0, rot2 := p.getD 4 0, rot3 := p.getD 5 0 }

/-- set_tolerance(value): percentage bounds around the current values, with a
quadratic fallback window for a near-zero poni or rotation; dist and
wavelength always use the linear scaling. -/
def set_tolerance (e : Engine) (value : ℚ) : Engine :=
  let low := 1 - value / 100
  let hi := 1 + value / 100
  { e with
    dist_min := low * e.dist
    dist_max := hi * e.dist
    poni1_min := if |e.poni1| > (value / 100) ^ 2 then
        min (low * e.poni1) (hi * e.poni1) else -((value / 100) ^ 2)
    poni1_max := if |e.poni1| > (value / 100) ^ 2 then
        max (low * e.poni1) (hi * e.poni1) else (value / 100) ^ 2
    poni2_min := if |e.poni2| > (value / 100) ^ 2 then
        min (low * e.poni2) (hi * e.poni2) else -((value / 100) ^ 2)
    poni2_max := if |e.poni2| > (value / 100) ^ 2 then
        max (low * e.poni2) (hi * e.poni2) else (value / 100) ^ 2
    rot1_min := if |e.rot1| > (value / 100) ^ 2 then
        min (low * e.rot1) (hi * e.rot1) else -((value / 100) ^ 2)
    rot1_max := if |e.rot1| > (value / 100) ^ 2 then
        max (low * e.rot1) (hi * e.rot1) else (value / 100) ^ 2
    rot2_min := if |e.rot2| > (value / 100) ^ 2 then
        min (low * e.rot2) (hi * e.rot2) else -((value / 100) ^ 2)
    rot2_max := if |e.rot2| > (value / 100) ^ 2 then
        max (low * e.rot2) (hi * e.rot2) else (value / 100) ^ 2
    rot3_min := if |e.rot3| > (value / 100) ^ 2 then
        min (low * e.rot3) (hi * e.rot3) else -((value / 100) ^ 2)
    rot3_max := if |e.rot3| > (value / 100) ^ 2 then
        max (low * e.rot3) (hi * e.rot3) else (value / 100) ^ 2
    wavelength_min := low * e.wavelength
    wavelength_max := hi * e.wavelength }

/-- guess_poni: centroid, in metric coordinates, of the observations whose
tth lies within 1e-6 of the smallest tth; the pixel-to-metric conversion
calc_cartesian_positions lives in the external detector object and is an
abstract parameter. Fails (none) on an empty dataset, where tth.min()
raises. -/
def guess_poni (calcCart : ℚ → ℚ → ℚ × ℚ) (e : Engine) : Option Engine :=
  match (col e.data 2).min? with
  | none => none
  | some m =>
    let srtdata := e.data.mergeSort (fun a b => decide (a.getD 2 0 ≤ b.getD 2 0))
    let smallRing := srtdata.filter (fun r => decide (r.getD 2 0 < m + (1e-6 : ℚ)))
    let l : ℚ := smallRing.length
    some { e with
      poni1 := (smallRing.map (fun r => (calcCart (r.getD 0 0) (r.getD 1 0)).1)).sum / l
      poni2 := (smallRing.map (fun r => (calcCart (r.getD 0 0) (r.getD 1 0)).2)).sum / l }

/-- The residual-vector function refine1 hands to scipy.optimize.leastsq:
self.residu1 closed over the three dataset columns. -/
def residu1Fun (t : Tth) (asin : ℚ → ℚ) (e : Engine) : List ℚ → List ℚ :=
  fun prm => residu1 t asin e.wavelength e.dSpacing prm
    (col e.data 0) (col e.data 1) (col e.data 2)

/-- The scalar objective simplex and anneal hand to fmin/anneal:
self.residu2 closed over the three raw dataset columns. -/
def residu2Fun (t : Tth) (asin : ℚ → ℚ) (e : Engine) : List ℚ → ℚ :=
  fun prm => residu2 t asin e.wavelength e.dSpacing prm
    (col e.data 0) (col e.data 1) (col e.data 2)

/-- The candidate refine1 obtains from leastsq(self.residu1, self.param, ...),
started at the snapshot of the current pose. -/
def refine1Cand (t : Tth) (asin : ℚ → ℚ)
    (leastsq : (List ℚ → List ℚ) → List ℚ → List ℚ) (e : Engine) : List ℚ :=
  leastsq (residu1Fun t asin e) (poseList e)

/-- refine1: snapshot the pose into self.param, run leastsq on residu1, and
commit the candidate only when its chi2 is strictly below the chi2 of the
snapshot; the logging is functionally inert and dropped. Returns the new
state and the returned chi-squared. -/
def refine1 (t : Tth) (asin : ℚ → ℚ)
    (leastsq : (List ℚ → List ℚ) → List ℚ → List ℚ) (e : Engine) : Engine × ℚ :=
  let p0 := poseList e
  let newParam := refine1Cand t asin leastsq e
  let oldDeltaSq := chi2 t asin e (some p0)
  let newDeltaSq := chi2 t asin e (some newParam)
  if newDeltaSq < oldDeltaSq then
    (commit6 { e with param := p0 } newParam, newDeltaSq)
  else
    ({ e with param := p0 }, oldDeltaSq)

/-- The bounds list refine2 builds: a fixed name collapses to a point at the
current value, anything else takes the stored min/max pair. -/
def refine2Bounds (e : Engine) (fix : List String) : List (ℚ × ℚ) :=
  poseNames.map (fun n =>
    if fix.contains n then (getAttr e n, getAttr e n)
    else (boundMin e n, boundMax e n))

/-- The candidate refine2 obtains from fmin_slsqp: the 3-column dataset picks
the unweighted objective, the 4-column dataset the weighted one (with the
ring column cast to int32); any other column count leaves the candidate
unbound in the source (an UnboundLocalError follows), modelled by none. -/
def refine2Cand (t : Tth) (asin : ℚ → ℚ)
    (slsqp : (List ℚ → ℚ) → List ℚ → List (ℚ × ℚ) → List ℚ)
    (e : Engine) (fix : List String) : Option (List ℚ) :=
  if ncols e = 3 then
    some (slsqp
      (fun prm => residu2 t asin e.wavelength e.dSpacing prm
        (col e.data 0) (col e.data 1) (ringIntCol e.data))
      (poseNames.map (getAttr e)) (refine2Bounds e fix))
  else if ncols e = 4 then
    some (slsqp
      (fun prm => residu2_weighted t asin e.wavelength e.dSpacing prm
        (col e.data 0) (col e.data 1) (ringIntCol e.data) (col e.data 3))
      (poseNames.map (getAttr e)) (refine2Bounds e fix))
  else none

/-- refine2: bounded refinement of the six pose parameters; on a dataset with
neither 3 nor 4 columns the comparison against the never-assigned candidate
raises (none), after self.param has already been set to the snapshot. -/
def refine2 (t : Tth) (asin : ℚ → ℚ)
    (slsqp : (List ℚ → ℚ) → List ℚ → List (ℚ × ℚ) → List ℚ)
    (e : Engine) (fix : List String) : Engine × Option ℚ :=
  let e1 := { e with param := poseNames.map (getAttr e) }
  match refine2Cand t asin slsqp e fix with
  | none => (e1, none)
  | some newParam =>
    let oldDeltaSq := chi2 t asin e1 none
    let newDeltaSq := chi2 t asin e1 (some newParam)
    if newDeltaSq < oldDeltaSq then (commit6 e1 newParam, some newDeltaSq)
    else (e1, some oldDeltaSq)

/-- The 7-name list of refine2_wavelength. -/
def names7 : List String :=
  poseNames ++ ["wavelength"]

/-- The start vector of refine2_wavelength: the seven attributes with the last
one (the wavelength) rescaled by 1e10 for numerical conditioning. -/
def rwParam (e : Engine) : List ℚ :=
  ((names7.map (getAttr e)).dropLast) ++ [(1e10 : ℚ) * getAttr e ("wavelength")]

/-- The bounds of refine2_wavelength, with the last pair rescaled by 1e10. -/
def rwBounds (e : Engine) (fix : List String) : List (ℚ × ℚ) :=
  let b0 := names7.map (fun n =>
    if fix.contains n then (getAttr e n, getAttr e n)
    else (boundMin e n, boundMax e n))
  b0.dropLast ++ [((b0.getLast?.getD (0, 0)).1 * (1e10 : ℚ),
                   (b0.getLast?.getD (0, 0)).2 * (1e10 : ℚ))]

/-- The candidate refine2_wavelength obtains from fmin_slsqp on the
wavelength-refined objective; none when the column count is neither 3 nor 4
(UnboundLocalError in the source). -/
def rwCand (t : Tth) (asin : ℚ → ℚ)
    (slsqp : (List ℚ → ℚ) → List ℚ → List (ℚ × ℚ) → List ℚ)
    (e : Engine) (fix : List String) : Option (List ℚ) :=
  if ncols e = 3 then
    some (slsqp
      (fun prm => residu2_wavelength t asin e.dSpacing prm
        (col e.data 0) (col e.data 1) (ringIntCol e.data))
      (rwParam e) (rwBounds e fix))
  else if ncols e = 4 then
    some (slsqp
      (fun prm => residu2_wavelength_weighted t asin e.dSpacing prm
        (col e.data 0) (col e.data 1) (ringIntCol e.data) (col e.data 3))
      (rwParam e) (rwBounds e fix))
  else none

/-- refine2_wavelength: bounded refinement of the seven parameters with the
wavelength carried rescaled by 1e10; the commit step unpacks newParam[:-1]
into the six pose fields and restores self.wavelength = 1e-10 * newParam[-1]. -/
def refine2_wavelength (t : Tth) (asin : ℚ → ℚ)
    (slsqp : (List ℚ → ℚ) → List ℚ → List (ℚ × ℚ) → List ℚ)
    (e : Engine) (fix : List String) : Engine × Option ℚ :=
  let e1 := { e with param := rwParam e }
  match rwCand t asin slsqp e fix with
  | none => (e1, none)
  | some newParam =>
    match (chi2_wavelength t asin e1 ParamKind.array none).1,
          (chi2_wavelength t asin e1 ParamKind.array (some newParam)).1 with
    | none, _ => (e1, none)
    | _, none => (e1, none)
    | some oldDeltaSq, some newDeltaSq =>
      if newDeltaSq < oldDeltaSq then
        ({ e1 with param := newParam,
                   dist := newParam.getD 0 0, poni1 := newParam.getD 1 0,
                   poni2 := newParam.getD 2 0, rot1 := newParam.getD 3 0,
                   rot2 := newParam.getD 4 0, rot3 := newParam.getD 5 0,
                   wavelength := (1e-10 : ℚ) * (newParam.getLast?.getD 0) },
         some newDeltaSq)
      else (e1, some oldDeltaSq)

/-- The candidate simplex obtains from fmin(self.residu2, self.param, ...). -/
def simplexCand (t : Tth) (asin : ℚ → ℚ)
    (fmin : (List ℚ → ℚ) → List ℚ → List ℚ) (e : Engine) : List ℚ :=
  fmin (residu2Fun t asin e) (poseList e)

/-- simplex: derivative-free refinement with the same snapshot/commit shape as
refine1. -/
def simplex (t : Tth) (asin : ℚ → ℚ)
    (fmin : (List ℚ → ℚ) → List ℚ → List ℚ) (e : Engine) : Engine × ℚ :=
  let p0 := poseList e
  let newParam := simplexCand t asin fmin e
  let oldDeltaSq := chi2 t asin e (some p0)
  let newDeltaSq := chi2 t asin e (some newParam)
  if newDeltaSq < oldDeltaSq then
    (commit6 { e with param := p0 } newParam, newDeltaSq)
  else
    ({ e with param := p0 }, oldDeltaSq)

/-- The lower bound array anneal passes. -/
def annealLower (e : Engine) : List ℚ :=
  [e.dist_min, e.poni1_min, e.poni2_min, e.rot1_min, e.rot2_min, e.rot3_min]

/-- The upper bound array anneal passes. -/
def annealUpper (e : Engine) : List ℚ :=
  [e.dist_max, e.poni1_max, e.poni2_max, e.rot1_max, e.rot2_max, e.rot3_max]

/-- The candidate anneal obtains: result[0] of
anneal(self.residu2, self.param, lower, upper, ...). -/
def annealCand (t : Tth) (asin : ℚ → ℚ)
    (ann : (List ℚ → ℚ) → List ℚ → List ℚ → List ℚ → List ℚ) (e : Engine) : List ℚ :=
  ann (residu2Fun t asin e) (poseList e) (annealLower e) (annealUpper e)

/-- anneal: stochastic global search with the same snapshot/commit shape; the
chi2 of the snapshot is read through the parameterless self.chi2(). -/
def anneal (t : Tth) (asin : ℚ → ℚ)
    (ann : (List ℚ → ℚ) → List ℚ → List ℚ → List ℚ → List ℚ) (e : Engine) : Engine × ℚ :=
  let e1 := { e with param := poseList e }
  let newParam := annealCand t asin ann e
  let oldDeltaSq := chi2 t asin e1 none
  let newDeltaSq := chi2 t asin e1 (some newParam)
  if newDeltaSq < oldDeltaSq then (commit6 e1 newParam, newDeltaSq)
  else (e1, oldDeltaSq)

/-- One stdout line of the external roca tool: the whitespace-split word list
together with the numeric value float(word[1]) parses to when the line is
recognized. A line is used only when it has exactly 3 words and word[0] is
one of the six recognized keys. -/
def rocaStep (e : Engine) (np : List ℚ) (line : List String × ℚ) : List ℚ :=
  if line.1.length = 3 then
    let w0 := line.1.headD ""
    if w0 = "cen1" then np.set 1 (line.2 * e.pixel1)
    else if w0 = "cen2" then np.set 2 (line.2 * e.pixel2)
    else if w0 = "dis" then np.set 0 line.2
    else if w0 = "rot1" then np.set 3 line.2
    else if w0 = "rot2" then np.set 4 line.2
    else if w0 = "rot3" then np.set 5 line.2
    else np
  else np

/-- The candidate pose roca parses from the tool stdout, starting from the
current pose. -/
def rocaCand (e : Engine) (stdout : List (List String × ℚ)) : List ℚ :=
  stdout.foldl (rocaStep e) (poseList e)

/-- roca: runs the external tool (its stdout is the abstract input here),
parses a candidate pose, and commits it when chi2(newParam) < chi2(self.param)
-- the comparison is against the existing self.param, no snapshot of the
current pose is taken first. The Python function has no return statement:
it returns None, modelled by the none component. -/
def roca (t : Tth) (asin : ℚ → ℚ) (e : Engine)
    (stdout : List (List String × ℚ)) : Engine × Option ℚ :=
  let newParam := rocaCand e stdout
  if chi2 t asin e (some newParam) < chi2 t asin e (some e.param) then
    (commit6 e newParam, none)
  else
    (e, none)

/-! Concrete instances used by witnesses and counterexamples. -/

/-- A concrete forward model for witnesses: the predicted angle is the first
parameter component. -/
def cT : Tth := fun _ _ p => p.getD 0 0

/-- A concrete stand-in for arcsin in witnesses: the identity. -/
def cA : ℚ → ℚ := fun q => q

/-- A concrete engine with a one-point dataset on ring 0. -/
def egEngine : Engine where
  dist := 1
  poni1 := 0
  poni2 := 0
  rot1 := 0
  rot2 := 0
  rot3 := 0
  wavelength := 0
  pixel1 := 1
  pixel2 := 1
  param := [1, 0, 0, 0, 0, 0]
  data := [[0, 0, 0]]
  dSpacing := [3]
  dist_min := 0
  dist_max := 10
  poni1_min := -1
  poni1_max := 1
  poni2_min := -1
  poni2_max := 1
  rot1_min := -3
  rot1_max := 3
  rot2_min := -3
  rot2_max := 3
  rot3_min := -3
  rot3_max := 3
  wavelength_min := 1e-15
  wavelength_max := 1e-8

/-- The concrete engine with the detector distance zeroed. -/
def egEngineD0 : Engine := { egEngine with dist := 0 }

/-- The concrete engine with a 2-column dataset. -/
def egEngine2 : Engine := { egEngine with data := [[0, 0]] }

/-- A no-op bounded minimizer: returns its start vector unchanged. -/
def cSlsqp : (List ℚ → ℚ) → List ℚ → List (ℚ × ℚ) → List ℚ := fun _ p _ => p

/-! Small helper lemmas. -/

theorem truncInt_zero : truncInt 0 = 0 := by decide

theorem poseNames_map_getAttr (e : Engine) : poseNames.map (getAttr e) = poseList e := rfl

theorem rwParam_length (e : Engine) : (rwParam e).length = 7 := by
  simp [rwParam, names7, poseNames]

theorem chi2_wavelength_some (t : Tth) (asin : ℚ → ℚ) (e : Engine) (k : ParamKind)
    (q : List ℚ) :
    chi2_wavelength t asin e k (some q) = (some (chi2_wavelength_on t asin e q), e.param) :=
  rfl

theorem chi2_wavelength_none_rw (t : Tth) (asin : ℚ → ℚ) (e : Engine) (k : ParamKind) :
    chi2_wavelength t asin { e with param := rwParam e } k none =
      (some (chi2_wavelength_on t asin e (rwParam e)), rwParam e) := by
  simp [chi2_wavelength, chi2_wavelength_on, rwParam_length]

/-! Claims. -/

/-- C5 (counterexample): with the d-spacing table [3e-10] the code does NOT
produce 2 * arcsin(1/6) at ring 0 and wavelength 1e-10: instantiating the
abstract arcsin with the identity, the argument the code feeds it is
1e-10 / (2e-10 * 3e-10) = 1e10/6, not 1/6. -/
theorem calc_2th_angstrom_table_counterexample :
    calc_2th cA [(3e-10 : ℚ)] 0 (1e-10 : ℚ) ≠ 2 * cA ((1 : ℚ) / 6) := by
  simp only [calc_2th, cA, npGet, truncInt_zero]
  norm_num

/-- C5 (amended): the unit conversion in calc_2th divides by
2.0e-10 * dSpacing[ring], so the d-spacing table is in angstrom: with
dSpacing = [3] (i.e. 3e-10 m expressed in angstrom), ring 0 and wavelength
1e-10 m, calc_2th yields 2 * arcsin(1e-10 / (2e-10 * 3)) = 2 * arcsin(1/6),
for every interpretation of arcsin. -/
theorem calc_2th_reference_angle (asin : ℚ → ℚ) :
    calc_2th asin [(3 : ℚ)] 0 (1e-10 : ℚ) = 2 * asin ((1 : ℚ) / 6) := by
  simp only [calc_2th, npGet, truncInt_zero]
  norm_num

/-- C5 (witness): the amended reference-angle equation instantiated at the
identity stand-in for arcsin. -/
theorem calc_2th_reference_angle_witness :
    calc_2th cA [(3 : ℚ)] 0 (1e-10 : ℚ) = 2 * cA ((1 : ℚ) / 6) :=
  calc_2th_reference_angle cA

/-- C7: set_tolerance(10) with poni1 = 0 takes the degenerate branch (the
test abs(poni1) > (10/100)^2 fails) and sets the poni1 bounds to exactly
(-0.01, 0.01) = (-(10/100)^2, (10/100)^2). -/
theorem set_tolerance_degenerate_poni1 (e : Engine) (h : e.poni1 = 0) :
    (set_tolerance e 10).poni1_min = -(0.01 : ℚ) ∧
    (set_tolerance e 10).poni1_max = (0.01 : ℚ) := by
  simp only [set_tolerance, h]
  norm_num

/-- C7 (witness): the degenerate poni1 branch evaluated on a concrete engine. -/
theorem set_tolerance_degenerate_poni1_witness :
    egEngine.poni1 = 0 ∧
    (set_tolerance egEngine 10).poni1_min = -(0.01 : ℚ) ∧
    (set_tolerance egEngine 10).poni1_max = (0.01 : ℚ) :=
  ⟨rfl, (set_tolerance_degenerate_poni1 egEngine rfl).1,
        (set_tolerance_degenerate_poni1 egEngine rfl).2⟩

/-- C10: set_tolerance never applies the degenerate fallback to dist or
wavelength: their bounds are always the linear scalings low * current and
hi * current, so a zero distance collapses the distance bounds to the
degenerate interval [0, 0]. -/
theorem set_tolerance_linear_dist_wavelength (e : Engine) (value : ℚ) :
    (set_tolerance e value).dist_min = (1 - value / 100) * e.dist ∧
    (set_tolerance e value).dist_max = (1 + value / 100) * e.dist ∧
    (set_tolerance e value).wavelength_min = (1 - value / 100) * e.wavelength ∧
    (set_tolerance e value).wavelength_max = (1 + value / 100) * e.wavelength ∧
    (e.dist = 0 →
      (set_tolerance e value).dist_min = 0 ∧ (set_tolerance e value).dist_max = 0) := by
  refine ⟨rfl, rfl, rfl, rfl, fun h => ?_⟩
  simp [set_tolerance, h]

/-- C10 (witness): the collapse of the distance bounds on a concrete engine
with dist = 0. -/
theorem set_tolerance_linear_dist_wavelength_witness :
    egEngineD0.dist = 0 ∧
    (set_tolerance egEngineD0 10).dist_min = 0 ∧
    (set_tolerance egEngineD0 10).dist_max = 0 :=
  ⟨rfl, ((set_tolerance_linear_dist_wavelength egEngineD0 10).2.2.2.2 rfl).1,
        ((set_tolerance_linear_dist_wavelength egEngineD0 10).2.2.2.2 rfl).2⟩

/-- C4 (counterexample): the 6-element snapshots the strategies store in
self.param are numpy arrays (numpy.array(...) in refine1, refine2 and
simplex), and on such a snapshot the parameterless chi2_wavelength call
does not succeed: param.append(1e10 * self.wavelength) raises
AttributeError (ndarray has no append), so no objective value is returned,
never mind the appended one the claim promises. -/
theorem chi2_wavelength_array_append_counterexample :
    egEngine.param.length = 6 ∧
    (chi2_wavelength cT cA egEngine ParamKind.array none).1 = none ∧
    (chi2_wavelength cT cA egEngine ParamKind.array none).1 ≠
      some (chi2_wavelength_on cT cA egEngine
        (egEngine.param ++ [(1e10 : ℚ) * egEngine.wavelength])) := by
  have h2 : (chi2_wavelength cT cA egEngine ParamKind.array none).1 = none := rfl
  refine ⟨rfl, h2, ?_⟩
  rw [h2]
  exact fun hx => Option.noConfusion hx

/-- C4 (amended): the parameterless chi2_wavelength call on a 6-element param
snapshot auto-appends only when the snapshot is a Python list: it then
returns the wavelength-variant objective on the snapshot with the current
wavelength scaled by 1e10 appended as 7th component, the append also
mutating the stored param in place to that 7-element vector; when the
snapshot is a numpy array the same call raises AttributeError and returns
nothing, so the caller does have to care about how the snapshot is
represented. -/
theorem chi2_wavelength_auto_append (t : Tth) (asin : ℚ → ℚ) (e : Engine)
    (h : e.param.length = 6) :
    chi2_wavelength t asin e ParamKind.pylist none =
      (some (chi2_wavelength_on t asin e (e.param ++ [(1e10 : ℚ) * e.wavelength])),
       e.param ++ [(1e10 : ℚ) * e.wavelength]) ∧
    chi2_wavelength t asin e ParamKind.array none = (none, e.param) := by
  constructor <;> simp [chi2_wavelength, h]

/-- C4 (witness): the list-snapshot auto-append outcome on a concrete engine. -/
theorem chi2_wavelength_auto_append_witness :
    egEngine.param.length = 6 ∧
    chi2_wavelength cT cA egEngine ParamKind.pylist none =
      (some (chi2_wavelength_on cT cA egEngine
        (egEngine.param ++ [(1e10 : ℚ) * egEngine.wavelength])),
       egEngine.param ++ [(1e10 : ℚ) * egEngine.wavelength]) :=
  ⟨rfl, (chi2_wavelength_auto_append cT cA egEngine rfl).1⟩

/-- C8: on a dataset whose column count is neither 3 nor 4, refine2 and
refine2_wavelength raise (modelled by the none result: the minimizer output
name is never bound in the source and its use raises) and no pose field nor
the wavelength is changed. -/
theorem refine2_bad_shape (t : Tth) (asin : ℚ → ℚ)
    (slsqp : (List ℚ → ℚ) → List ℚ → List (ℚ × ℚ) → List ℚ)
    (e : Engine) (fix : List String)
    (h3 : ncols e ≠ 3) (h4 : ncols e ≠ 4) :
    (refine2 t asin slsqp e fix).2 = none ∧
    (refine2 t asin slsqp e fix).1.dist = e.dist ∧
    (refine2 t asin slsqp e fix).1.poni1 = e.poni1 ∧
    (refine2 t asin slsqp e fix).1.poni2 = e.poni2 ∧
    (refine2 t asin slsqp e fix).1.rot1 = e.rot1 ∧
    (refine2 t asin slsqp e fix).1.rot2 = e.rot2 ∧
    (refine2 t asin slsqp e fix).1.rot3 = e.rot3 ∧
    (refine2 t asin slsqp e fix).1.wavelength = e.wavelength ∧
    (refine2_wavelength t asin slsqp e fix).2 = none ∧
    (refine2_wavelength t asin slsqp e fix).1.dist = e.dist ∧
    (refine2_wavelength t asin slsqp e fix).1.poni1 = e.poni1 ∧
    (refine2_wavelength t asin slsqp e fix).1.poni2 = e.poni2 ∧
    (refine2_wavelength t asin slsqp e fix).1.rot1 = e.rot1 ∧
    (refine2_wavelength t asin slsqp e fix).1.rot2 = e.rot2 ∧
    (refine2_wavelength t asin slsqp e fix).1.rot3 = e.rot3 ∧
    (refine2_wavelength t asin slsqp e fix).1.wavelength = e.wavelength := by
  simp [refine2, refine2Cand, refine2_wavelength, rwCand, h3, h4]

/-- C8 (witness): a concrete 2-column dataset makes both bounded strategies
fail with all pose fields retained. -/
theorem refine2_bad_shape_witness :
    (refine2 cT cA cSlsqp egEngine2 ["wavelength"]).2 = none ∧
    (refine2 cT cA cSlsqp egEngine2 ["wavelength"]).1.dist = egEngine2.dist ∧
    (refine2_wavelength cT cA cSlsqp egEngine2 ["wavelength"]).2 = none ∧
    (refine2_wavelength cT cA cSlsqp egEngine2 ["wavelength"]).1.wavelength = egEngine2.wavelength := by
  have h := refine2_bad_shape cT cA cSlsqp egEngine2 ["wavelength"]
    (by decide) (by decide)
  exact ⟨h.1, h.2.1, h.2.2.2.2.2.2.2.2.1, h.2.2.2.2.2.2.2.2.2.2.2.2.2.2.2⟩

/-- A no-op leastsq stand-in for witnesses: returns the start vector. -/
def cNoopLsq : (List ℚ → List ℚ) → List ℚ → List ℚ := fun _ p => p

/-- A no-op fmin stand-in for witnesses. -/
def cNoopFmin : (List ℚ → ℚ) → List ℚ → List ℚ := fun _ p => p

/-- A no-op anneal stand-in for witnesses. -/
def cNoopAnneal : (List ℚ → ℚ) → List ℚ → List ℚ → List ℚ → List ℚ :=
  fun _ p _ _ => p

/-- Both pose fields of one engine agree with those of another, wavelength
included. -/
def samePose (f e : Engine) : Prop :=
  f.dist = e.dist ∧ f.poni1 = e.poni1 ∧ f.poni2 = e.poni2 ∧
  f.rot1 = e.rot1 ∧ f.rot2 = e.rot2 ∧ f.rot3 = e.rot3 ∧
  f.wavelength = e.wavelength

/-- C1 (amended): for the five numerical strategies the minimizer candidate is
committed (to the pose fields and to param) only when its chi-squared is
strictly below the chi-squared of the pre-call pose snapshot, otherwise the
snapshot state is retained, and the returned chi-squared never exceeds the
snapshot chi-squared. roca takes no snapshot: its commit test compares
against the chi-squared of the existing param field, so the same two
guarantees hold for roca only relative to chi2(param). -/
theorem commit_invariant
    (t : Tth) (asin : ℚ → ℚ) (e : Engine)
    (lsq : (List ℚ → List ℚ) → List ℚ → List ℚ)
    (fm : (List ℚ → ℚ) → List ℚ → List ℚ)
    (ann : (List ℚ → ℚ) → List ℚ → List ℚ → List ℚ → List ℚ)
    (s s2 : (List ℚ → ℚ) → List ℚ → List (ℚ × ℚ) → List ℚ)
    (fix fix2 : List String) (out : List (List String × ℚ)) :
    ((refine1 t asin lsq e).2 ≤ chi2 t asin e (some (poseList e)) ∧
      ((refine1 t asin lsq e).1 ≠ { e with param := poseList e } →
        chi2 t asin e (some (refine1Cand t asin lsq e)) <
          chi2 t asin e (some (poseList e)))) ∧
    ((simplex t asin fm e).2 ≤ chi2 t asin e (some (poseList e)) ∧
      ((simplex t asin fm e).1 ≠ { e with param := poseList e } →
        chi2 t asin e (some (simplexCand t asin fm e)) <
          chi2 t asin e (some (poseList e)))) ∧
    ((anneal t asin ann e).2 ≤ chi2 t asin e (some (poseList e)) ∧
      ((anneal t asin ann e).1 ≠ { e with param := poseList e } →
        chi2 t asin e (some (annealCand t asin ann e)) <
          chi2 t asin e (some (poseList e)))) ∧
    (∀ c, refine2Cand t asin s e fix = some c →
      (∀ v, (refine2 t asin s e fix).2 = some v →
        v ≤ chi2 t asin e (some (poseList e))) ∧
      ((refine2 t asin s e fix).1 ≠ { e with param := poseList e } →
        chi2 t asin e (some c) < chi2 t asin e (some (poseList e)))) ∧
    (∀ c, rwCand t asin s2 e fix2 = some c →
      (∀ v, (refine2_wavelength t asin s2 e fix2).2 = some v →
        v ≤ chi2_wavelength_on t asin e (rwParam e)) ∧
      ((refine2_wavelength t asin s2 e fix2).1 ≠ { e with param := rwParam e } →
        chi2_wavelength_on t asin e c < chi2_wavelength_on t asin e (rwParam e))) ∧
    (chi2 t asin (roca t asin e out).1 (some ((roca t asin e out).1.param)) ≤
        chi2 t asin e (some e.param) ∧
      ((roca t asin e out).1 ≠ e →
        chi2 t asin e (some (rocaCand e out)) < chi2 t asin e (some e.param))) := by
  refine ⟨?_, ?_, ?_, ?_, ?_, ?_⟩
  · simp only [refine1]
    split_ifs with h
    · exact ⟨le_of_lt h, fun _ => h⟩
    · exact ⟨le_refl _, fun hne => absurd rfl hne⟩
  · simp only [simplex]
    split_ifs with h
    · exact ⟨le_of_lt h, fun _ => h⟩
    · exact ⟨le_refl _, fun hne => absurd rfl hne⟩
  · simp only [anneal]
    split_ifs with h
    · exact ⟨le_of_lt h, fun _ => h⟩
    · exact ⟨le_refl _, fun hne => absurd rfl hne⟩
  · intro c hc
    simp only [refine2, hc]
    split_ifs with h
    · exact ⟨fun v hv => by rw [← Option.some.inj hv]; exact le_of_lt h, fun _ => h⟩
    · exact ⟨fun v hv => by rw [← Option.some.inj hv]; exact le_rfl,
        fun hne => absurd rfl hne⟩
  · intro c hc
    simp only [refine2_wavelength, hc, chi2_wavelength_none_rw, chi2_wavelength_some]
    split_ifs with h
    · exact ⟨fun v hv => by rw [← Option.some.inj hv]; exact le_of_lt h, fun _ => h⟩
    · exact ⟨fun v hv => by rw [← Option.some.inj hv],
        fun hne => absurd rfl hne⟩
  · simp only [roca]
    split_ifs with h
    · exact ⟨le_of_lt h, fun _ => h⟩
    · exact ⟨le_refl _, fun hne => absurd rfl hne⟩

/-- The concrete engine with a zero distance pose but a stale param field
whose chi-squared is worse than the pose. -/
def egStale : Engine := { egEngine with dist := 0 }

/-- A concrete roca stdout with one recognized line: dis 0.5. -/
def cOutD : List (List String × ℚ) := [(["dis", "0.5", "x"], 1 / 2)]

/-- C1 (counterexample): roca performs no pose snapshot -- it compares the
candidate against the stale param field. Starting from the pose
(dist 0, ...) with chi-squared 0 but param [1,0,0,0,0,0] with chi-squared 1,
a tool output of dis 0.5 has chi-squared 1/4 < 1 and is committed, so the
post-call pose chi-squared 1/4 strictly exceeds the pre-call pose
chi-squared 0: the claimed never-regress invariant fails for roca. -/
theorem roca_stale_param_regression :
    chi2 cT cA (roca cT cA egStale cOutD).1 (some (poseList (roca cT cA egStale cOutD).1)) >
      chi2 cT cA egStale (some (poseList egStale)) := by
  have hcand : rocaCand egStale cOutD = [1 / 2, 0, 0, 0, 0, 0] := rfl
  have h1 : chi2 cT cA egStale (some (rocaCand egStale cOutD)) <
      chi2 cT cA egStale (some egStale.param) := by
    rw [hcand]
    norm_num [chi2, residu2, residu1, col, calc_2th, npGet, truncInt_zero,
      cT, cA, egStale, egEngine, poseList]
  have h2 : roca cT cA egStale cOutD = (commit6 egStale (rocaCand egStale cOutD), none) := by
    simp only [roca]
    rw [if_pos h1]
  rw [h2, hcand]
  norm_num [commit6, poseList, chi2, residu2, residu1, col, calc_2th, npGet,
    truncInt_zero, cT, cA, egStale, egEngine]

/-- C1 (witness): the amended invariant evaluated with no-op minimizers on a
concrete engine with a 3-column dataset. -/
theorem commit_invariant_witness :
    (refine1 cT cA cNoopLsq egEngine).2 ≤ chi2 cT cA egEngine (some (poseList egEngine)) ∧
    (refine2 cT cA cSlsqp egEngine ["wavelength"]).2 =
      some (chi2 cT cA egEngine (some (poseList egEngine))) ∧
    chi2 cT cA egEngine (some (poseList egEngine)) ≤
      chi2 cT cA egEngine (some (poseList egEngine)) := by
  have h := commit_invariant cT cA egEngine cNoopLsq cNoopFmin cNoopAnneal
    cSlsqp cSlsqp ["wavelength"] ["wavelength"] []
  have hv : (refine2 cT cA cSlsqp egEngine ["wavelength"]).2 =
      some (chi2 cT cA egEngine (some (poseList egEngine))) := by
    have hc : refine2Cand cT cA cSlsqp egEngine ["wavelength"] =
        some (poseNames.map (getAttr egEngine)) := rfl
    simp only [refine2, hc]
    split_ifs with hlt
    · exact absurd hlt (fun hx => lt_irrefl _ hx)
    · rfl
  exact ⟨h.1.1, hv, (h.2.2.2.1 _ rfl).1 _ hv⟩

/-- C2 (amended): when the minimizer candidate does not strictly improve the
chi-squared, every strategy leaves the six pose fields and the wavelength
bit-identical; refine1, refine2, refine2_wavelength, simplex and anneal then
return the pre-call chi-squared, while roca always returns None and merely
leaves the whole state unchanged. -/
theorem non_improvement_retains_state
    (t : Tth) (asin : ℚ → ℚ) (e : Engine)
    (lsq : (List ℚ → List ℚ) → List ℚ → List ℚ)
    (fm : (List ℚ → ℚ) → List ℚ → List ℚ)
    (ann : (List ℚ → ℚ) → List ℚ → List ℚ → List ℚ → List ℚ)
    (s s2 : (List ℚ → ℚ) → List ℚ → List (ℚ × ℚ) → List ℚ)
    (fix fix2 : List String) (out : List (List String × ℚ)) :
    (¬ chi2 t asin e (some (refine1Cand t asin lsq e)) < chi2 t asin e (some (poseList e)) →
      samePose (refine1 t asin lsq e).1 e ∧
      (refine1 t asin lsq e).2 = chi2 t asin e (some (poseList e))) ∧
    (¬ chi2 t asin e (some (simplexCand t asin fm e)) < chi2 t asin e (some (poseList e)) →
      samePose (simplex t asin fm e).1 e ∧
      (simplex t asin fm e).2 = chi2 t asin e (some (poseList e))) ∧
    (¬ chi2 t asin e (some (annealCand t asin ann e)) < chi2 t asin e (some (poseList e)) →
      samePose (anneal t asin ann e).1 e ∧
      (anneal t asin ann e).2 = chi2 t asin e (some (poseList e))) ∧
    (∀ c, refine2Cand t asin s e fix = some c →
      ¬ chi2 t asin e (some c) < chi2 t asin e (some (poseList e)) →
      samePose (refine2 t asin s e fix).1 e ∧
      (refine2 t asin s e fix).2 = some (chi2 t asin e (some (poseList e)))) ∧
    (∀ c, rwCand t asin s2 e fix2 = some c →
      ¬ chi2_wavelength_on t asin e c < chi2_wavelength_on t asin e (rwParam e) →
      samePose (refine2_wavelength t asin s2 e fix2).1 e ∧
      (refine2_wavelength t asin s2 e fix2).2 =
        some (chi2_wavelength_on t asin e (rwParam e))) ∧
    ((roca t asin e out).2 = none ∧
      (¬ chi2 t asin e (some (rocaCand e out)) < chi2 t asin e (some e.param) →
        (roca t asin e out).1 = e)) := by
  refine ⟨?_, ?_, ?_, ?_, ?_, ?_, ?_⟩
  · intro hni
    simp only [refine1]
    split_ifs
    exact ⟨⟨rfl, rfl, rfl, rfl, rfl, rfl, rfl⟩, rfl⟩
  · intro hni
    simp only [simplex]
    split_ifs
    exact ⟨⟨rfl, rfl, rfl, rfl, rfl, rfl, rfl⟩, rfl⟩
  · intro hni
    simp only [anneal]
    split_ifs with h
    · exact absurd h hni
    · exact ⟨⟨rfl, rfl, rfl, rfl, rfl, rfl, rfl⟩, rfl⟩
  · intro c hc hni
    simp only [refine2, hc]
    split_ifs with h
    · exact absurd h hni
    · exact ⟨⟨rfl, rfl, rfl, rfl, rfl, rfl, rfl⟩, rfl⟩
  · intro c hc hni
    simp only [refine2_wavelength, hc, chi2_wavelength_none_rw, chi2_wavelength_some]
    split_ifs with h
    · exact absurd h hni
    · exact ⟨⟨rfl, rfl, rfl, rfl, rfl, rfl, rfl⟩, rfl⟩
  · simp only [roca]
    split_ifs <;> rfl
  · intro hni
    simp only [roca]
    split_ifs
    rfl

/-- C2 (counterexample): on a non-improving call roca does not return the
pre-call chi-squared; the Python function returns None. The concrete call
below is non-improving (empty tool output, candidate = current pose =
param), yet the result carries no chi-squared value at all. -/
theorem roca_none_return_on_non_improvement :
    ¬ chi2 cT cA egEngine (some (rocaCand egEngine [])) <
        chi2 cT cA egEngine (some egEngine.param) ∧
    (roca cT cA egEngine []).2 = none ∧
    (roca cT cA egEngine []).2 ≠
      some (chi2 cT cA egEngine (some (poseList egEngine))) := by
  have hni : ¬ chi2 cT cA egEngine (some (rocaCand egEngine [])) <
      chi2 cT cA egEngine (some egEngine.param) := fun hx => lt_irrefl _ hx
  have h2 : (roca cT cA egEngine []).2 = none := by
    simp only [roca]
    split_ifs
    rfl
  refine ⟨hni, h2, ?_⟩
  rw [h2]
  exact fun hx => Option.noConfusion hx

/-- C2 (witness): the retained state and returned chi-squared for a
non-improving refine1 call and a non-improving roca call on a concrete
engine. -/
theorem non_improvement_retains_state_witness :
    samePose (refine1 cT cA cNoopLsq egEngine).1 egEngine ∧
    (refine1 cT cA cNoopLsq egEngine).2 = chi2 cT cA egEngine (some (poseList egEngine)) ∧
    (roca cT cA egEngine []).1 = egEngine := by
  have h := non_improvement_retains_state cT cA egEngine cNoopLsq cNoopFmin cNoopAnneal
    cSlsqp cSlsqp ["wavelength"] ["wavelength"] []
  have hni1 : ¬ chi2 cT cA egEngine (some (refine1Cand cT cA cNoopLsq egEngine)) <
      chi2 cT cA egEngine (some (poseList egEngine)) := fun hx => lt_irrefl _ hx
  have hnir : ¬ chi2 cT cA egEngine (some (rocaCand egEngine [])) <
      chi2 cT cA egEngine (some egEngine.param) := fun hx => lt_irrefl _ hx
  exact ⟨(h.1 hni1).1, (h.1 hni1).2, h.2.2.2.2.2.2 hnir⟩

/-- C3 (amended): refine1, simplex, anneal return the smaller of the snapshot
chi-squared and the candidate chi-squared, and refine2/refine2_wavelength
return it wrapped in some whenever the minimizer ran; roca, however, returns
no chi-squared at all (None), so the claimed every-strategy return contract
fails for roca. -/
theorem returns_better_chi2
    (t : Tth) (asin : ℚ → ℚ) (e : Engine)
    (lsq : (List ℚ → List ℚ) → List ℚ → List ℚ)
    (fm : (List ℚ → ℚ) → List ℚ → List ℚ)
    (ann : (List ℚ → ℚ) → List ℚ → List ℚ → List ℚ → List ℚ)
    (s s2 : (List ℚ → ℚ) → List ℚ → List (ℚ × ℚ) → List ℚ)
    (fix fix2 : List String) (out : List (List String × ℚ)) :
    (refine1 t asin lsq e).2 =
      min (chi2 t asin e (some (poseList e)))
          (chi2 t asin e (some (refine1Cand t asin lsq e))) ∧
    (simplex t asin fm e).2 =
      min (chi2 t asin e (some (poseList e)))
          (chi2 t asin e (some (simplexCand t asin fm e))) ∧
    (anneal t asin ann e).2 =
      min (chi2 t asin e (some (poseList e)))
          (chi2 t asin e (some (annealCand t asin ann e))) ∧
    (∀ c, refine2Cand t asin s e fix = some c →
      (refine2 t asin s e fix).2 =
        some (min (chi2 t asin e (some (poseList e))) (chi2 t asin e (some c)))) ∧
    (∀ c, rwCand t asin s2 e fix2 = some c →
      (refine2_wavelength t asin s2 e fix2).2 =
        some (min (chi2_wavelength_on t asin e (rwParam e))
                  (chi2_wavelength_on t asin e c))) ∧
    (roca t asin e out).2 = none := by
  refine ⟨?_, ?_, ?_, ?_, ?_, ?_⟩
  · simp only [refine1]
    split_ifs with h
    · exact (min_eq_right (le_of_lt h)).symm
    · exact (min_eq_left (not_lt.mp h)).symm
  · simp only [simplex]
    split_ifs with h
    · exact (min_eq_right (le_of_lt h)).symm
    · exact (min_eq_left (not_lt.mp h)).symm
  · simp only [anneal]
    split_ifs with h
    · exact (min_eq_right (le_of_lt h)).symm
    · exact (min_eq_left (not_lt.mp h)).symm
  · intro c hc
    simp only [refine2, hc]
    split_ifs with h
    · exact congrArg some (min_eq_right (le_of_lt h)).symm
    · exact congrArg some (min_eq_left (not_lt.mp h)).symm
  · intro c hc
    simp only [refine2_wavelength, hc, chi2_wavelength_none_rw, chi2_wavelength_some]
    split_ifs with h
    · exact congrArg some (min_eq_right (le_of_lt h)).symm
    · exact congrArg some (min_eq_left (not_lt.mp h)).symm
  · simp only [roca]
    split_ifs <;> rfl

/-- C3 (counterexample): roca returns None, never the post-decision
chi-squared, already on a concrete improving call. -/
theorem roca_returns_none_not_min :
    (roca cT cA egEngine cOutD).2 ≠
      some (min (chi2 cT cA egEngine (some egEngine.param))
                (chi2 cT cA egEngine (some (rocaCand egEngine cOutD)))) := by
  have h2 : (roca cT cA egEngine cOutD).2 = none := by
    simp only [roca]
    split_ifs <;> rfl
  rw [h2]
  exact fun hx => Option.noConfusion hx

/-- C3 (witness): the min-return equations for refine1 and refine2 on a
concrete engine with a no-op minimizer. -/
theorem returns_better_chi2_witness :
    (refine1 cT cA cNoopLsq egEngine).2 =
      min (chi2 cT cA egEngine (some (poseList egEngine)))
          (chi2 cT cA egEngine (some (refine1Cand cT cA cNoopLsq egEngine))) ∧
    (refine2 cT cA cSlsqp egEngine ["wavelength"]).2 =
      some (min (chi2 cT cA egEngine (some (poseList egEngine)))
                (chi2 cT cA egEngine (some (poseNames.map (getAttr egEngine))))) := by
  have h := returns_better_chi2 cT cA egEngine cNoopLsq cNoopFmin cNoopAnneal
    cSlsqp cSlsqp ["wavelength"] ["wavelength"] []
  exact ⟨h.1, h.2.2.2.1 _ rfl⟩

/-- C6: with a no-op minimizer (one returning its start vector unchanged),
refine2_wavelength leaves the wavelength field exactly equal to its starting
value: the candidate equals the 1e10-scaled start, its chi-squared ties the
snapshot chi-squared, so the strict-improvement commit (whose rescale by
1e-10 would reproduce the start exactly) is not taken and the field is
retained; on a bad column count the raise also precedes any wavelength
write. -/
theorem refine2_wavelength_noop_restores_wavelength
    (t : Tth) (asin : ℚ → ℚ) (e : Engine) (fix : List String)
    (slsqp : (List ℚ → ℚ) → List ℚ → List (ℚ × ℚ) → List ℚ)
    (hno : ∀ f p b, slsqp f p b = p) :
    (refine2_wavelength t asin slsqp e fix).1.wavelength = e.wavelength := by
  by_cases h3 : ncols e = 3
  · have hc : rwCand t asin slsqp e fix = some (rwParam e) := by
      simp only [rwCand, if_pos h3, hno]
    simp only [refine2_wavelength, hc, chi2_wavelength_none_rw, chi2_wavelength_some]
    split_ifs with h
    · exact absurd h (fun hx => lt_irrefl _ hx)
    · rfl
  · by_cases h4 : ncols e = 4
    · have hc : rwCand t asin slsqp e fix = some (rwParam e) := by
        simp only [rwCand, if_neg h3, if_pos h4, hno]
      simp only [refine2_wavelength, hc, chi2_wavelength_none_rw, chi2_wavelength_some]
      split_ifs with h
      · exact absurd h (fun hx => lt_irrefl _ hx)
      · rfl
    · have hc : rwCand t asin slsqp e fix = none := by
        simp only [rwCand, if_neg h3, if_neg h4]
      simp only [refine2_wavelength, hc]

/-- C6 (witness): the wavelength retention on a concrete engine with the
concrete no-op bounded minimizer. -/
theorem refine2_wavelength_noop_restores_wavelength_witness :
    (refine2_wavelength cT cA cSlsqp egEngine ["wavelength"]).1.wavelength =
      egEngine.wavelength :=
  refine2_wavelength_noop_restores_wavelength cT cA egEngine ["wavelength"] cSlsqp
    (fun _ _ _ => rfl)

/-- C9: guess_poni fails on an empty dataset (tth.min() raises there), and
when exactly one observation lies within 1e-6 of the smallest tth, the
committed (poni1, poni2) are exactly the metric coordinates of that single
observation: the centroid of one point is the point. -/
theorem guess_poni_spec (calcCart : ℚ → ℚ → ℚ × ℚ) (e : Engine) :
    (e.data = [] → guess_poni calcCart e = none) ∧
    (∀ m r, (col e.data 2).min? = some m →
      e.data.filter (fun row => decide (row.getD 2 0 < m + (1e-6 : ℚ))) = [r] →
      guess_poni calcCart e =
        some { e with poni1 := (calcCart (r.getD 0 0) (r.getD 1 0)).1,
                      poni2 := (calcCart (r.getD 0 0) (r.getD 1 0)).2 }) := by
  constructor
  · intro h
    simp [guess_poni, h, col]
  · intro m r hm hf
    have hsing : (e.data.mergeSort (fun a b => decide (a.getD 2 0 ≤ b.getD 2 0))).filter
        (fun row => decide (row.getD 2 0 < m + (1e-6 : ℚ))) = [r] :=
      List.perm_singleton.mp
        (hf ▸ (List.mergeSort_perm e.data _).filter _)
    simp only [guess_poni, hm, hsing]
    simp

/-- The concrete engine for the single-point innermost-ring scenario: two
observations, the innermost ring holds only the first one. -/
def egEngine9 : Engine := { egEngine with data := [[5, 7, 2], [1, 2, 9]] }

/-- A concrete pixel-to-metric conversion for witnesses: the identity pair. -/
def cCart : ℚ → ℚ → ℚ × ℚ := fun a b => (a, b)

/-- C9 (witness): on the concrete two-point dataset the innermost ring is the
single point (5, 7) and guess_poni commits exactly its metric coordinates. -/
theorem guess_poni_spec_witness :
    (col egEngine9.data 2).min? = some 2 ∧
    egEngine9.data.filter (fun row => decide (row.getD 2 0 < 2 + (1e-6 : ℚ))) =
      [[5, 7, 2]] ∧
    guess_poni cCart egEngine9 = some { egEngine9 with poni1 := 5, poni2 := 7 } := by
  have hm : (col egEngine9.data 2).min? = some 2 := by
    norm_num [col, egEngine9, egEngine, List.min?, min_def]
  have hf : egEngine9.data.filter (fun row => decide (row.getD 2 0 < 2 + (1e-6 : ℚ))) =
      [[5, 7, 2]] := by
    norm_num [egEngine9, egEngine, List.filter_cons]
  exact ⟨hm, hf, (guess_poni_spec cCart egEngine9).2 2 [5, 7, 2] hm hf⟩

end GeometryRefinement
